import Mathlib

/-!
# Verification of rclone's multi-thread copy engine
A shallow embedding of `fs/operations/multithread.go`: the range math
(`calculateNumChunks`, chunk byte ranges), the concurrency planner, the
offset-adapter writer, the adapted chunk writer (`writerAtChunkWriter`),
and the transfer coordinator (`multiThreadCopy`) as an event-trace model.
Go `int`/`int64` values are modelled as `Int`; Go integer division and
modulus truncate toward zero, so they are `Int.tdiv` / `Int.tmod`.
-/

namespace Multithread

/-- From `calculateNumChunks` (multithread.go:120-126):
`numChunks := size / chunkSize; if size%chunkSize != 0 { numChunks++ }`. -/
def calculateNumChunks (size chunkSize : Int) : Int :=
  let numChunks := size.tdiv chunkSize
  if size.tmod chunkSize ≠ 0 then numChunks + 1 else numChunks

/-- Go panics on division by zero; `calculateNumChunks` guarded by that panic:
`none` exactly when the divisor is zero, otherwise the function's value. -/
def calculateNumChunksChecked (size chunkSize : Int) : Option Int :=
  if chunkSize = 0 then none else some (calculateNumChunks size chunkSize)

/-- For positive size and chunk size, `calculateNumChunks` computed with Go's
truncating division equals its Euclidean-division form. -/
theorem calculateNumChunks_eq_ediv {size chunkSize : Int}
    (hs : 0 < size) (hc : 0 < chunkSize) :
    calculateNumChunks size chunkSize =
      (if size % chunkSize ≠ 0 then size / chunkSize + 1 else size / chunkSize) := by
  unfold calculateNumChunks
  rw [Int.tdiv_eq_ediv (by omega) (by omega), Int.tmod_eq_emod (by omega) (by omega)]

/-- Ceiling-division bounds for `calculateNumChunks`: the returned count covers
the size and the count less one does not. -/
theorem calculateNumChunks_bounds {size chunkSize : Int}
    (hs : 0 < size) (hc : 0 < chunkSize) :
    calculateNumChunks size chunkSize * chunkSize ≥ size ∧
      (calculateNumChunks size chunkSize - 1) * chunkSize < size := by
  rw [calculateNumChunks_eq_ediv hs hc]
  have hdm := Int.ediv_add_emod size chunkSize
  have hlt := Int.emod_lt_of_pos size hc
  have hge := Int.emod_nonneg size (by omega : chunkSize ≠ 0)
  by_cases h : size % chunkSize = 0
  · simp only [h, ne_eq, not_true_eq_false, if_false, ite_false]
    exact ⟨by nlinarith, by nlinarith⟩
  · have hr : 0 < size % chunkSize := lt_of_le_of_ne hge (Ne.symm h)
    simp only [h, ne_eq, not_false_eq_true, if_true, ite_true]
    exact ⟨by nlinarith, by nlinarith⟩

/-- The chunk count is at least one for positive inputs. -/
theorem calculateNumChunks_pos {size chunkSize : Int}
    (hs : 0 < size) (hc : 0 < chunkSize) :
    1 ≤ calculateNumChunks size chunkSize := by
  have h := (calculateNumChunks_bounds hs hc).1
  nlinarith

/-- From `multiThreadCopy` (multithread.go:170-173): the backend-reported chunk
size is capped to the source size only when it exceeds it:
`if info.ChunkSize > src.Size() { info.ChunkSize = src.Size() }`. -/
def capChunkSize (srcSize infoChunkSize : Int) : Int :=
  if infoChunkSize > srcSize then srcSize else infoChunkSize

/-- From `multiThreadCopy` (multithread.go:175-188): clamp the requested
concurrency to `numChunks`, then adopt the backend concurrency when
`--multi-thread-streams` was not set explicitly or the backend value is
larger, and finally floor the result at 1. -/
def plannedConcurrency (numChunks requested backendConcurrency : Int)
    (multiThreadSet : Bool) : Int :=
  let c1 := if requested > numChunks then numChunks else requested
  let c2 := if multiThreadSet = false ∨ backendConcurrency > c1 then
    backendConcurrency else c1
  if c2 < 1 then 1 else c2

/-- From `multiThreadCopyState.copyChunk` (multithread.go:72):
`start := int64(chunk) * mc.partSize`. -/
def chunkStart (partSize chunk : Int) : Int := chunk * partSize

/-- From `multiThreadCopyState.copyChunk` (multithread.go:76-79):
`end := start + mc.partSize; if end > mc.size { end = mc.size }`. -/
def chunkEnd (size partSize chunk : Int) : Int :=
  let e := chunkStart partSize chunk + partSize
  if e > size then size else e

/-- From `multiThreadCopyState.copyChunk` (multithread.go:72-80): the byte
range `[start, end)` that chunk number `chunk` copies; `none` when the
defensive `start >= mc.size` branch returns without doing any I/O. -/
def copyChunkRange (size partSize chunk : Int) : Option (Int × Int) :=
  if chunkStart partSize chunk ≥ size then none
  else some (chunkStart partSize chunk, chunkEnd size partSize chunk)

/-- `chunkEnd` is the minimum of the next chunk boundary and the size. -/
theorem chunkEnd_eq_min (size partSize chunk : Int) :
    chunkEnd size partSize chunk = min (chunkStart partSize chunk + partSize) size := by
  show (if chunkStart partSize chunk + partSize > size then size
    else chunkStart partSize chunk + partSize) = _
  split <;> omega

/-- The capped chunk size stays positive for positive inputs. -/
theorem capChunkSize_pos {srcSize infoChunkSize : Int}
    (hs : 0 < srcSize) (hc : 0 < infoChunkSize) :
    0 < capChunkSize srcSize infoChunkSize := by
  unfold capChunkSize; split <;> omega

/-- Every in-range chunk index takes the real copy branch of `copyChunk`
(its start offset is below the size, so the defensive skip never fires). -/
theorem copyChunkRange_in_range {size partSize : Int}
    (hs : 0 < size) (hc : 0 < partSize)
    {i : Int} (_h0 : 0 ≤ i) (hi : i < calculateNumChunks size partSize) :
    copyChunkRange size partSize i =
      some (chunkStart partSize i, chunkEnd size partSize i) := by
  have hb := (calculateNumChunks_bounds hs hc).2
  have hle : i * partSize ≤ (calculateNumChunks size partSize - 1) * partSize :=
    mul_le_mul_of_nonneg_right (by omega) (le_of_lt hc)
  unfold copyChunkRange chunkStart at *
  split
  · omega
  · rfl

/-- Every offset in `[0, size)` lies in the range of the chunk with index
`x / partSize`. -/
theorem mem_chunk_of_lt {size partSize : Int}
    (hs : 0 < size) (hc : 0 < partSize)
    {x : Int} (hx0 : 0 ≤ x) (hxs : x < size) :
    ∃ i : Int, 0 ≤ i ∧ i < calculateNumChunks size partSize ∧
      chunkStart partSize i ≤ x ∧ x < chunkEnd size partSize i := by
  refine ⟨x / partSize, Int.ediv_nonneg hx0 (le_of_lt hc), ?_, ?_, ?_⟩
  · have hcov := (calculateNumChunks_bounds hs hc).1
    have hdm := Int.ediv_add_emod x partSize
    have hge := Int.emod_nonneg x (by omega : partSize ≠ 0)
    by_contra hcon
    push_neg at hcon
    have : calculateNumChunks size partSize * partSize ≤ (x / partSize) * partSize :=
      mul_le_mul_of_nonneg_right hcon (le_of_lt hc)
    nlinarith
  · have hdm := Int.ediv_add_emod x partSize
    have hge := Int.emod_nonneg x (by omega : partSize ≠ 0)
    unfold chunkStart
    nlinarith
  · have hdm := Int.ediv_add_emod x partSize
    have hlt := Int.emod_lt_of_pos x hc
    rw [chunkEnd_eq_min]
    have h1 : x < chunkStart partSize (x / partSize) + partSize := by
      unfold chunkStart; nlinarith
    omega

/-- C1 (counterexample): with source size 10, backend-reported chunk size 64,
requested concurrency 8, backend-preferred concurrency 4 and
`--multi-thread-streams` not set explicitly, the planner caps the chunk size
to 10, computes one chunk, clamps the request to 1, but then adopts the
backend concurrency 4 — so the planned concurrency exceeds `numChunks`,
refuting `concurrency <= numChunks`. -/
theorem plannedConcurrency_can_exceed_numChunks :
    calculateNumChunks 10 (capChunkSize 10 64) = 1 ∧
    plannedConcurrency (calculateNumChunks 10 (capChunkSize 10 64)) 8 4 false = 4 ∧
    ¬ plannedConcurrency (calculateNumChunks 10 (capChunkSize 10 64)) 8 4 false ≤
        calculateNumChunks 10 (capChunkSize 10 64) := by
  refine ⟨by decide, by decide, by decide⟩

/-- C1 (amended): for every transfer plan (size > 0, backend-reported chunk
size > 0, any requested concurrency, backend-preferred concurrency and
explicit/implicit flag), the planned concurrency satisfies
`1 <= concurrency <= max numChunks backendConcurrency`: the upper bound
`numChunks` alone fails whenever the backend-preferred concurrency is adopted
and exceeds it. -/
theorem plannedConcurrency_bounds
    {srcSize infoChunkSize requested backendConcurrency : Int}
    {multiThreadSet : Bool} (hs : 0 < srcSize) (hc : 0 < infoChunkSize) :
    1 ≤ plannedConcurrency (calculateNumChunks srcSize (capChunkSize srcSize infoChunkSize))
          requested backendConcurrency multiThreadSet ∧
    plannedConcurrency (calculateNumChunks srcSize (capChunkSize srcSize infoChunkSize))
          requested backendConcurrency multiThreadSet ≤
      max (calculateNumChunks srcSize (capChunkSize srcSize infoChunkSize))
        backendConcurrency := by
  have h1 : 1 ≤ calculateNumChunks srcSize (capChunkSize srcSize infoChunkSize) :=
    calculateNumChunks_pos hs (capChunkSize_pos hs hc)
  simp only [plannedConcurrency]
  split_ifs <;> constructor <;> omega

/-- C1 witness: the amended bounds at the counterexample's inputs. -/
theorem plannedConcurrency_bounds_witness :
    1 ≤ plannedConcurrency (calculateNumChunks 10 (capChunkSize 10 64)) 8 4 false ∧
    plannedConcurrency (calculateNumChunks 10 (capChunkSize 10 64)) 8 4 false ≤
      max (calculateNumChunks 10 (capChunkSize 10 64)) 4 :=
  plannedConcurrency_bounds (by decide) (by decide)

/-- C2: for all size > 0 and chunkSize > 0, `calculateNumChunks` returns the
ceiling of `size / chunkSize`: the count covers the size and one chunk fewer
does not. -/
theorem calculateNumChunks_is_ceil (size chunkSize : Int)
    (hs : 0 < size) (hc : 0 < chunkSize) :
    calculateNumChunks size chunkSize * chunkSize ≥ size ∧
      (calculateNumChunks size chunkSize - 1) * chunkSize < size :=
  calculateNumChunks_bounds hs hc

/-- C2 witness: `size=150, chunkSize=64` gives `numChunks = 3` and the
ceiling bounds hold there. -/
theorem calculateNumChunks_is_ceil_witness :
    calculateNumChunks 150 64 = 3 ∧
    (calculateNumChunks 150 64 * 64 ≥ 150 ∧
      (calculateNumChunks 150 64 - 1) * 64 < 150) :=
  ⟨by decide, calculateNumChunks_is_ceil 150 64 (by decide) (by decide)⟩

/-- C3: for size > 0, partSize > 0 and `numChunks = calculateNumChunks`, every
index in `[0, numChunks)` takes the real copy branch and gets the range
`[i*partSize, min((i+1)*partSize, size))`; consecutive ranges are contiguous,
ranges of distinct indices are non-overlapping, and the union of the ranges
is exactly `[0, size)`. -/
theorem chunk_ranges_partition {size partSize : Int}
    (hs : 0 < size) (hc : 0 < partSize) :
    (∀ i : Int, 0 ≤ i → i < calculateNumChunks size partSize →
      copyChunkRange size partSize i =
        some (i * partSize, min ((i + 1) * partSize) size)) ∧
    (∀ i : Int, 0 ≤ i → i + 1 < calculateNumChunks size partSize →
      chunkEnd size partSize i = chunkStart partSize (i + 1)) ∧
    (∀ i j : Int, 0 ≤ i → i < j →
      chunkEnd size partSize i ≤ chunkStart partSize j) ∧
    (∀ x : Int, (0 ≤ x ∧ x < size) ↔
      ∃ i : Int, 0 ≤ i ∧ i < calculateNumChunks size partSize ∧
        chunkStart partSize i ≤ x ∧ x < chunkEnd size partSize i) := by
  refine ⟨?_, ?_, ?_, ?_⟩
  · intro i h0 hi
    rw [copyChunkRange_in_range hs hc h0 hi, chunkEnd_eq_min]
    unfold chunkStart
    have : (i + 1) * partSize = i * partSize + partSize := by ring
    rw [this]
  · intro i h0 hi
    have hb := (calculateNumChunks_bounds hs hc).2
    have hle : (i + 1) * partSize ≤ (calculateNumChunks size partSize - 1) * partSize :=
      mul_le_mul_of_nonneg_right (by omega) (le_of_lt hc)
    rw [chunkEnd_eq_min]
    unfold chunkStart
    have : (i + 1) * partSize = i * partSize + partSize := by ring
    omega
  · intro i j h0 hij
    have hle : (i + 1) * partSize ≤ j * partSize :=
      mul_le_mul_of_nonneg_right (by omega) (le_of_lt hc)
    rw [chunkEnd_eq_min]
    unfold chunkStart
    have : (i + 1) * partSize = i * partSize + partSize := by ring
    omega
  · intro x
    constructor
    · rintro ⟨hx0, hxs⟩
      exact mem_chunk_of_lt hs hc hx0 hxs
    · rintro ⟨i, h0, _, hxl, hxr⟩
      have hnn : 0 ≤ chunkStart partSize i :=
        mul_nonneg h0 (le_of_lt hc)
      rw [chunkEnd_eq_min] at hxr
      exact ⟨le_trans hnn hxl, by omega⟩

/-- C3 witness: with `size=150, partSize=64` there are three chunks and chunk
2 gets the final truncated range `[128, 150)`. -/
theorem chunk_ranges_partition_witness :
    calculateNumChunks 150 64 = 3 ∧
    copyChunkRange 150 64 2 = some (2 * 64, min ((2 + 1) * 64) 150) :=
  ⟨by decide,
    (chunk_ranges_partition (by decide) (by decide)).1 2 (by decide) (by decide)⟩

/-! ## Offset-adapter writer (multithread.go:244-263) -/

/-- From `offsetWriter` (multithread.go:248-251): the current absolute
offset of the adapter. -/
structure OffsetWriter where
  off : Int
  deriving DecidableEq

/-- From `newOffsetWriter` (multithread.go:255-257). -/
def newOffsetWriter (off : Int) : OffsetWriter := ⟨off⟩

/-- From `offsetWriter.Write` (multithread.go:259-263): the write is issued at
the current offset (`o.w.WriteAt(p, o.off)`) and the offset advances by the
byte count `n` the underlying writer reports (`o.off += int64(n)`); `n : Nat`
embeds the `io.WriterAt` contract that a reported count is never negative.
Returns the absolute offset this write landed at, and the new state. -/
def OffsetWriter.write (o : OffsetWriter) (n : Nat) : Int × OffsetWriter :=
  (o.off, ⟨o.off + n⟩)

/-- Run a sequence of writes whose reported byte counts are `ns`, collecting
the absolute offset each write landed at. -/
def OffsetWriter.writeAll (o : OffsetWriter) (ns : List Nat) : List Int × OffsetWriter :=
  match ns with
  | [] => ([], o)
  | n :: rest =>
    let p := o.write n
    let q := p.2.writeAll rest
    (p.1 :: q.1, q.2)

/-- The landing offsets of a write sequence against a fresh adapter. -/
def writeOffsets (base : Int) (ns : List Nat) : List Int :=
  ((newOffsetWriter base).writeAll ns).1

/-- Each write in a sequence lands at the starting offset plus the total byte
count reported by the preceding writes, and the final cursor is the starting
offset plus the whole sequence's total. -/
theorem writeAll_spec (ns : List Nat) : ∀ o : OffsetWriter,
    (∀ k : Nat, k < ns.length →
      (o.writeAll ns).1[k]? = some (o.off + ((ns.take k).sum : Int))) ∧
    (o.writeAll ns).2.off = o.off + (ns.sum : Int) := by
  induction ns with
  | nil =>
    intro o
    refine ⟨fun k hk => by simp at hk, by simp [OffsetWriter.writeAll]⟩
  | cons n rest ih =>
    intro o
    constructor
    · intro k hk
      cases k with
      | zero => simp [OffsetWriter.writeAll, OffsetWriter.write]
      | succ k =>
        have h := (ih ⟨o.off + n⟩).1 k (by simpa using hk)
        simp only [OffsetWriter.writeAll, OffsetWriter.write] at *
        rw [List.getElem?_cons_succ, h]
        simp [List.sum_cons]
        ring
    · have h := (ih ⟨o.off + n⟩).2
      simp only [OffsetWriter.writeAll, OffsetWriter.write] at *
      rw [h]
      simp [List.sum_cons]
      ring

/-- Prefix sums of reported byte counts are monotone. -/
theorem take_sum_mono (ns : List Nat) {k j : Nat} (hkj : k ≤ j) :
    (ns.take k).sum ≤ (ns.take j).sum := by
  have h : ns.take j = ns.take k ++ (ns.drop k).take (j - k) := by
    rw [← List.take_add]
    congr 1
    omega
  rw [h, List.sum_append]
  omega

/-- C5: every `Write` on an offset adapter based at `index*chunkSize` lands at
absolute offset `index*chunkSize + localOffset`, where `localOffset` is the
total byte count reported by all previous writes; the cursor ends at the base
plus the sequence total and the landing offsets never move backwards. -/
theorem offsetWriter_placement (index chunkSize : Int) (ns : List Nat) :
    (∀ k : Nat, k < ns.length →
      (writeOffsets (index * chunkSize) ns)[k]? =
        some (index * chunkSize + ((ns.take k).sum : Int))) ∧
    ((newOffsetWriter (index * chunkSize)).writeAll ns).2.off =
      index * chunkSize + (ns.sum : Int) ∧
    (∀ k j : Nat, k ≤ j → j < ns.length → ∀ a b : Int,
      (writeOffsets (index * chunkSize) ns)[k]? = some a →
      (writeOffsets (index * chunkSize) ns)[j]? = some b → a ≤ b) := by
  have h := writeAll_spec ns (newOffsetWriter (index * chunkSize))
  refine ⟨fun k hk => h.1 k hk, h.2, ?_⟩
  intro k j hkj hj a b ha hb
  rw [writeOffsets] at ha hb
  rw [h.1 k (lt_of_le_of_lt hkj hj)] at ha
  rw [h.1 j hj] at hb
  have hmono := take_sum_mono ns hkj
  have ha2 := Option.some.inj ha
  have hb2 := Option.some.inj hb
  omega

/-- C5 witness: against a fresh adapter for chunk 2 with chunk size 64,
after writes reporting 3 bytes then 4 bytes, the second write lands at
`2*64 + 3`. -/
theorem offsetWriter_placement_witness :
    (writeOffsets (2 * 64) [3, 4])[1]? =
      some (2 * 64 + ((([3, 4] : List Nat).take 1).sum : Int)) :=
  (offsetWriter_placement 2 64 [3, 4]).1 1 (by decide)

/-! ## Adapted chunk writer (multithread.go:265-319) -/

/-- From `writerAtChunkWriter` (multithread.go:266-274), keeping the fields
`WriteChunk` reads: the object size, the chunk size, the chunk count, and the
optional write-buffer size. -/
structure WriterAtChunkWriter where
  size : Int
  chunkSize : Int
  chunks : Int
  writeBufferSize : Int
  deriving DecidableEq

/-- From `writerAtChunkWriter.WriteChunk` (multithread.go:280-283): the
expected byte count — `w.chunkSize` except for the final chunk when
`w.size % w.chunkSize` is nonzero, in which case that remainder. -/
def WriterAtChunkWriter.bytesToWrite (w : WriterAtChunkWriter)
    (chunkNumber : Int) : Int :=
  if chunkNumber = w.chunks - 1 ∧ w.size.tmod w.chunkSize ≠ 0 then
    w.size.tmod w.chunkSize
  else w.chunkSize

/-- From `writerAtChunkWriter.WriteChunk` (multithread.go:277-305): `copied`
is the byte count `io.Copy` moved into the offset writer based at
`chunkNumber*chunkSize`, `copyNotOk` whether `io.Copy` itself failed, and
`flushNotOk` whether the final `bufio` flush (interposed only when
`writeBufferSize > 0`) failed. Success returns the byte count; any copy
failure, count mismatch, or flush failure returns an error. -/
def WriterAtChunkWriter.writeChunk (w : WriterAtChunkWriter)
    (chunkNumber copied : Int) (copyNotOk flushNotOk : Bool) :
    Except String Int :=
  if copyNotOk then .error "copy failed"
  else if copied ≠ w.bytesToWrite chunkNumber then
    .error "expected to write bytesToWrite bytes for chunk, but wrote fewer"
  else if w.writeBufferSize > 0 ∧ flushNotOk then
    .error "multi-thread copy: flush failed"
  else .ok copied

/-- C4: `WriteChunk` expects `chunkSize` bytes for every chunk but the last,
and `size mod chunkSize` for the last chunk when that remainder is nonzero;
it returns success (with the byte count) only when the copied count equals
the expectation, it does succeed when the count matches and nothing else
fails, and it errors whenever the copied count differs. -/
theorem writeChunk_exact_count (w : WriterAtChunkWriter) :
    (∀ i : Int, i ≠ w.chunks - 1 → w.bytesToWrite i = w.chunkSize) ∧
    (w.bytesToWrite (w.chunks - 1) =
      if w.size.tmod w.chunkSize ≠ 0 then w.size.tmod w.chunkSize
      else w.chunkSize) ∧
    (∀ i copied : Int, ∀ copyNotOk flushNotOk : Bool, ∀ n : Int,
      w.writeChunk i copied copyNotOk flushNotOk = .ok n →
        n = copied ∧ copied = w.bytesToWrite i) ∧
    (∀ i : Int, w.writeChunk i (w.bytesToWrite i) false false =
      .ok (w.bytesToWrite i)) ∧
    (∀ i copied : Int, ∀ copyNotOk flushNotOk : Bool,
      copied ≠ w.bytesToWrite i →
      ∀ n : Int, w.writeChunk i copied copyNotOk flushNotOk ≠ .ok n) := by
  refine ⟨?_, ?_, ?_, ?_, ?_⟩
  · intro i hi
    unfold WriterAtChunkWriter.bytesToWrite
    rw [if_neg]
    intro hcon
    exact hi hcon.1
  · unfold WriterAtChunkWriter.bytesToWrite
    split_ifs with h1 h2 <;> tauto
  · intro i copied copyNotOk flushNotOk n h
    unfold WriterAtChunkWriter.writeChunk at h
    split_ifs at h with h1 h2 h3
    exact ⟨(Except.ok.inj h).symm, by omega⟩
  · intro i
    unfold WriterAtChunkWriter.writeChunk
    simp
  · intro i copied copyNotOk flushNotOk hne n
    unfold WriterAtChunkWriter.writeChunk
    split_ifs <;> simp

/-- C4 witness: `size=150, chunkSize=64, chunks=3`: the final chunk expects
`150 mod 64 = 22` bytes, and writing exactly 22 bytes succeeds. -/
theorem writeChunk_exact_count_witness :
    WriterAtChunkWriter.writeChunk ⟨150, 64, 3, 0⟩
      2 (WriterAtChunkWriter.bytesToWrite ⟨150, 64, 3, 0⟩ 2) false false =
        .ok (WriterAtChunkWriter.bytesToWrite ⟨150, 64, 3, 0⟩ 2) :=
  (writeChunk_exact_count ⟨150, 64, 3, 0⟩).2.2.2.1 2

/-! ## Transfer coordinator (multithread.go:130-242), as an event-trace model

`multiThreadCopy` is embedded as a function from the outcomes of its external
calls (chunk-writer open, the chunk copies gathered by `g.Wait()`, `Close`,
`NewObject`, `SetModTime`, `Abort`) to the ordered list of calls it makes on
the destination and its returned result. -/

/-- Calls the coordinator makes on the destination backend. -/
inductive Event where
  | openWriter
  | closeWriter
  | newObject
  | setModTime
  | abortWriter
  deriving DecidableEq, Repr

/-- Outcome of `obj.SetModTime` (multithread.go:232-237): the two tolerated
cannot-set-mod-time errors are distinguished from any other error. -/
inductive ModTimeResult where
  | ok
  | cantSetModTime
  | cantSetModTimeWithoutDelete
  | other (e : String)
  deriving DecidableEq

/-- From `fs.ChunkWriterInfo`, the fields `multiThreadCopy` reads. -/
structure ChunkWriterInfo where
  chunkSize : Int
  concurrency : Int
  leavePartsOnError : Bool
  deriving DecidableEq

/-- The inputs of one `multiThreadCopy` run: the source size, the concurrency
configuration, and the outcome each external call would report. `waitErr` is
the error `g.Wait()` gathers from the chunk copies — `some` exactly when some
chunk copy returned an error. `abortErr` is what `Abort` would report if
invoked. -/
structure CopyEnv where
  srcSize : Int
  requestedConcurrency : Int
  multiThreadSet : Bool
  openResult : Except String ChunkWriterInfo
  waitErr : Option String
  closeErr : Option String
  newObjectErr : Option String
  partialUploads : Bool
  modTimeResult : ModTimeResult
  abortErr : Option String

/-- From `multiThreadCopy` (multithread.go:170-241), the body that runs once
the chunk writer is open: cap the chunk size, plan chunk count and
concurrency, run the chunk copies (`g.Wait()`), then always invoke `Close`;
a chunk error is returned in preference to the close error; on success look
up the object and, when the destination has `PartialUploads`, propagate the
modification time tolerating only the two cannot-set errors. Returns the
events after the open, and the function's result. -/
def multiThreadCopyBody (env : CopyEnv) (info0 : ChunkWriterInfo) :
    List Event × Except String Unit :=
  let info := if info0.chunkSize > env.srcSize then
    { info0 with chunkSize := env.srcSize } else info0
  let numChunks := calculateNumChunks env.srcSize info.chunkSize
  let _concurrency := plannedConcurrency numChunks env.requestedConcurrency
    info.concurrency env.multiThreadSet
  match env.waitErr with
  | some e => ([Event.closeWriter], .error e)
  | none =>
    match env.closeErr with
    | some e => ([Event.closeWriter],
        .error ("multi-thread copy: failed to close object after copy: " ++ e))
    | none =>
      match env.newObjectErr with
      | some e => ([Event.closeWriter, Event.newObject],
          .error ("multi-thread copy: failed to find object after copy: " ++ e))
      | none =>
        if env.partialUploads then
          match env.modTimeResult with
          | ModTimeResult.other e =>
            ([Event.closeWriter, Event.newObject, Event.setModTime],
              .error ("multi-thread copy: failed to set modification time: " ++ e))
          | _ => ([Event.closeWriter, Event.newObject, Event.setModTime], .ok ())
        else ([Event.closeWriter, Event.newObject], .ok ())

/-- From `multiThreadCopy` (multithread.go:130-242): reject unknown and zero
size before opening the chunk writer; after a successful open, the deferred
`atexit.OnError` handler (multithread.go:158-168) invokes `Abort` on exit
exactly when the returned error is non-nil and `LeavePartsOnError` is unset,
and only logs any abort failure. -/
def multiThreadCopy (env : CopyEnv) : List Event × Except String Unit :=
  if env.srcSize < 0 then
    ([], .error "multi-thread copy: cant copy unknown sized file")
  else if env.srcSize = 0 then
    ([], .error "multi-thread copy: cant copy zero sized file")
  else
    match env.openResult with
    | .error e => ([Event.openWriter],
        .error ("multi-thread copy: failed to open chunk writer: " ++ e))
    | .ok info =>
      let body := multiThreadCopyBody env info
      match body.2 with
      | .ok _ => (Event.openWriter :: body.1, body.2)
      | .error _ =>
        if info.leavePartsOnError then (Event.openWriter :: body.1, body.2)
        else (Event.openWriter :: body.1 ++ [Event.abortWriter], body.2)

/-- Whether a run's result is an error (`err != nil`), which is what the
deferred `atexit.OnError` handler tests. -/
def resultErr : Except String Unit → Bool
  | .ok _ => false
  | .error _ => true

/-- The body invokes `Close` exactly once and never invokes `Abort` itself;
a chunk error is returned as-is, and a close error surfaces (wrapped) only
when no chunk erred. -/
theorem multiThreadCopyBody_spec (env : CopyEnv) (info0 : ChunkWriterInfo) :
    (multiThreadCopyBody env info0).1.count Event.closeWriter = 1 ∧
    (multiThreadCopyBody env info0).1.count Event.abortWriter = 0 ∧
    (∀ e, env.waitErr = some e → (multiThreadCopyBody env info0).2 = .error e) ∧
    (∀ e, env.waitErr = none → env.closeErr = some e →
      (multiThreadCopyBody env info0).2 =
        .error ("multi-thread copy: failed to close object after copy: " ++ e)) := by
  unfold multiThreadCopyBody
  cases hw : env.waitErr with
  | some e => simp [List.count_cons, List.count_nil]
  | none =>
    cases hc : env.closeErr with
    | some e => simp [List.count_cons, List.count_nil]
    | none =>
      cases hn : env.newObjectErr with
      | some e => simp [List.count_cons, List.count_nil]
      | none =>
        cases hp : env.partialUploads
        · simp [List.count_cons, List.count_nil]
        · cases hm : env.modTimeResult <;>
            simp [List.count_cons, List.count_nil]

/-- Once the chunk writer is open, the run returns the body's result, and its
event trace is the open followed by the body's events, with `Abort` appended
exactly when the result is an error and `LeavePartsOnError` is unset. -/
theorem multiThreadCopy_spec (env : CopyEnv) (info : ChunkWriterInfo)
    (hs : 0 < env.srcSize) (ho : env.openResult = .ok info) :
    (multiThreadCopy env).2 = (multiThreadCopyBody env info).2 ∧
    (multiThreadCopy env).1 =
      (if resultErr (multiThreadCopyBody env info).2 && !info.leavePartsOnError
       then Event.openWriter :: (multiThreadCopyBody env info).1 ++ [Event.abortWriter]
       else Event.openWriter :: (multiThreadCopyBody env info).1) := by
  unfold multiThreadCopy
  rw [if_neg (by omega), if_neg (by omega), ho]
  cases hb : (multiThreadCopyBody env info).2 with
  | ok u => simp [hb, resultErr]
  | error e =>
    cases hl : info.leavePartsOnError <;> simp [hb, hl, resultErr]

/-- C6 (counterexample): a run in which chunk 2 fails still invokes the chunk
writer's `Close` — the coordinator calls `Close` unconditionally after
`g.Wait()`, so `Close` is invoked even when a chunk returned an error. -/
def envChunkFail : CopyEnv :=
  { srcSize := 10, requestedConcurrency := 4, multiThreadSet := true,
    openResult := .ok ⟨5, 4, false⟩, waitErr := some "chunk 2 failed",
    closeErr := none, newObjectErr := none, partialUploads := false,
    modTimeResult := .ok, abortErr := none }

/-- C6 (counterexample): with a failing chunk, `Close` is still invoked. -/
theorem close_called_despite_chunk_error :
    envChunkFail.waitErr = some "chunk 2 failed" ∧
    Event.closeWriter ∈ (multiThreadCopy envChunkFail).1 ∧
    (multiThreadCopy envChunkFail).2 = .error "chunk 2 failed" := by
  have h : (multiThreadCopy envChunkFail).1 =
      [Event.openWriter, Event.closeWriter, Event.abortWriter] := rfl
  exact ⟨rfl, by rw [h]; simp, rfl⟩

/-- C6 (amended): the coordinator invokes `Close` exactly once on every run
that opens the chunk writer, whether or not the chunks succeeded; when some
chunk returned an error, that chunk error — not the close outcome — is what
`multiThreadCopy` returns. -/
theorem close_always_called_once (env : CopyEnv) (info : ChunkWriterInfo)
    (hs : 0 < env.srcSize) (ho : env.openResult = .ok info) :
    (multiThreadCopy env).1.count Event.closeWriter = 1 ∧
    (∀ e, env.waitErr = some e → (multiThreadCopy env).2 = .error e) := by
  have hspec := multiThreadCopy_spec env info hs ho
  have hbody := multiThreadCopyBody_spec env info
  constructor
  · rw [hspec.2]
    split <;> simp [List.count_cons, List.count_append, hbody.1]
  · intro e he
    rw [hspec.1]
    exact hbody.2.2.1 e he

/-- C6 witness: the amended statement at the counterexample's inputs. -/
theorem close_always_called_once_witness :
    (multiThreadCopy envChunkFail).1.count Event.closeWriter = 1 :=
  (close_always_called_once envChunkFail ⟨5, 4, false⟩ (by decide) rfl).1

/-- C7: when every chunk copy succeeds but `Close` fails, `multiThreadCopy`
returns no object and the wrapped close error. -/
theorem close_failure_fails_transfer (env : CopyEnv) (info : ChunkWriterInfo)
    (e : String) (hs : 0 < env.srcSize) (ho : env.openResult = .ok info)
    (hw : env.waitErr = none) (hc : env.closeErr = some e) :
    (multiThreadCopy env).2 =
      .error ("multi-thread copy: failed to close object after copy: " ++ e) ∧
    ∀ u : Unit, (multiThreadCopy env).2 ≠ .ok u := by
  have hspec := multiThreadCopy_spec env info hs ho
  have hbody := multiThreadCopyBody_spec env info
  have h := hbody.2.2.2 e hw hc
  rw [hspec.1, h]
  exact ⟨rfl, fun u hcon => Except.noConfusion hcon⟩

/-- C7 witness: a run with all chunks succeeding and `Close` failing. -/
def envCloseFail : CopyEnv :=
  { srcSize := 10, requestedConcurrency := 4, multiThreadSet := true,
    openResult := .ok ⟨5, 4, false⟩, waitErr := none,
    closeErr := some "boom", newObjectErr := none, partialUploads := false,
    modTimeResult := .ok, abortErr := none }

/-- C7 witness: the close error surfaces, wrapped, at concrete inputs. -/
theorem close_failure_fails_transfer_witness :
    (multiThreadCopy envCloseFail).2 =
      .error ("multi-thread copy: failed to close object after copy: " ++ "boom") :=
  (close_failure_fails_transfer envCloseFail ⟨5, 4, false⟩ "boom"
    (by decide) rfl rfl rfl).1

/-- C8: on every failing run that opened the chunk writer, `Abort` is invoked
exactly once when `LeavePartsOnError` is unset and never when it is set; the
run's entire observable behaviour is independent of what `Abort` would
report, and a chunk error is returned unchanged. -/
theorem abort_on_failure (env : CopyEnv) (info : ChunkWriterInfo)
    (hs : 0 < env.srcSize) (ho : env.openResult = .ok info)
    (hf : ∃ msg, (multiThreadCopy env).2 = .error msg) :
    (multiThreadCopy env).1.count Event.abortWriter =
      (if info.leavePartsOnError then 0 else 1) ∧
    (∀ x, multiThreadCopy { env with abortErr := x } = multiThreadCopy env) ∧
    (∀ e, env.waitErr = some e → (multiThreadCopy env).2 = .error e) := by
  have hspec := multiThreadCopy_spec env info hs ho
  have hbody := multiThreadCopyBody_spec env info
  refine ⟨?_, fun x => rfl, fun e he => by rw [hspec.1]; exact hbody.2.2.1 e he⟩
  obtain ⟨msg, hmsg⟩ := hf
  have herr : resultErr (multiThreadCopyBody env info).2 = true := by
    rw [hspec.1] at hmsg
    rw [hmsg]
    rfl
  rw [hspec.2, herr]
  cases hl : info.leavePartsOnError <;>
    simp [List.count_cons, List.count_append, hbody.2.1]

/-- C8 witness: in the concrete failing run, `Abort` is invoked once. -/
theorem abort_on_failure_witness :
    (multiThreadCopy envChunkFail).1.count Event.abortWriter =
      (if (ChunkWriterInfo.mk 5 4 false).leavePartsOnError then 0 else 1) :=
  (abort_on_failure envChunkFail ⟨5, 4, false⟩ (by decide) rfl
    ⟨"chunk 2 failed", rfl⟩).1

/-- C9: a source with negative (unknown) or zero declared size is rejected
with an error before any external call: the event trace is empty, so the
chunk writer is never opened and no destination state is touched. -/
theorem invalid_size_rejected (env : CopyEnv) (hs : env.srcSize ≤ 0) :
    (multiThreadCopy env).1 = [] ∧
    ∃ msg, (multiThreadCopy env).2 = .error msg := by
  unfold multiThreadCopy
  by_cases h : env.srcSize < 0
  · rw [if_pos h]
    exact ⟨rfl, _, rfl⟩
  · rw [if_neg h, if_pos (by omega)]
    exact ⟨rfl, _, rfl⟩

/-- C9 witness: a zero-size source. -/
def envZeroSize : CopyEnv :=
  { srcSize := 0, requestedConcurrency := 4, multiThreadSet := true,
    openResult := .ok ⟨5, 4, false⟩, waitErr := none,
    closeErr := none, newObjectErr := none, partialUploads := false,
    modTimeResult := .ok, abortErr := none }

/-- C9 witness: the zero-size run makes no external call at all. -/
theorem invalid_size_rejected_witness :
    (multiThreadCopy envZeroSize).1 = [] :=
  (invalid_size_rejected envZeroSize (by decide)).1

/-- C10: `calculateNumChunks` divides without a guard, so it is total and
panic-free under the precondition `chunkSize > 0` (the checked form returns a
value), it reaches Go's division-by-zero panic exactly when `chunkSize = 0`,
and the coordinator's cap of the backend-reported chunk size leaves a zero or
negative chunk size unchanged for a positive-size source — a backend `Info`
reporting `ChunkSize <= 0` reaches the division with a non-positive divisor. -/
theorem calculateNumChunks_division_guard (size chunkSize : Int)
    (hs : 0 < size) :
    (chunkSize ≤ 0 → capChunkSize size chunkSize = chunkSize ∧
      capChunkSize size chunkSize ≤ 0) ∧
    (calculateNumChunksChecked size chunkSize = none ↔ chunkSize = 0) ∧
    (0 < chunkSize → calculateNumChunksChecked size chunkSize =
      some (calculateNumChunks size chunkSize)) := by
  refine ⟨fun hc => ?_, ?_, fun hc => ?_⟩
  · unfold capChunkSize
    rw [if_neg (by omega)]
    omega
  · unfold calculateNumChunksChecked
    split <;> simp_all
  · unfold calculateNumChunksChecked
    rw [if_neg (by omega)]

/-- C10 witness: a backend-reported chunk size of 0 for a 10-byte source is
left at 0 by the cap and hits the unguarded division. -/
theorem calculateNumChunks_division_guard_witness :
    (capChunkSize 10 0 = 0 ∧ capChunkSize 10 0 ≤ 0) ∧
    calculateNumChunksChecked 10 (capChunkSize 10 0) = none := by
  have h := calculateNumChunks_division_guard 10 0 (by decide)
  have h0 := h.1 (by decide)
  exact ⟨h0, by rw [h0.1]; exact h.2.1.mpr rfl⟩

end Multithread
